import Mathlib

/-!
Verification of the smart-list note application core: the access-control
evaluator, the note/grant/notification stores, the note lifecycle service,
the notification lifecycle manager, and the notification sweep.

The JavaScript source is embedded shallowly: each SQL table becomes a list of
rows in a `DBState`, each service function becomes a Lean function on
`DBState` (fallible operations return `Except String`), timestamps are
integers in milliseconds since the epoch, and dependency failures are
modelled by explicit failure-injection parameters.
-/

namespace SmartList

/-- A row of the `notes` table (migration V001). `deadline` is `none` for SQL
NULL; timestamps are milliseconds since the epoch. -/
structure Note where
  id : Nat
  issue_key : String
  title : String
  content : String
  created_by : String
  deadline : Option Int
  is_public : Bool
  status : String
deriving Repr, DecidableEq

/-- A row of the `note_permissions` table (migration V002). The table has a
UNIQUE KEY on (note_id, user_account_id). -/
structure Grant where
  note_id : Nat
  user_account_id : String
  permission_type : String
  granted_by : String
deriving Repr, DecidableEq

/-- A row of the `notifications` table (migration V003). `is_read` is the
sent flag set by `markNotificationAsRead`. -/
structure Notification where
  id : Nat
  user_account_id : String
  note_id : Nat
  kind : String
  title : String
  message : String
  is_read : Bool
deriving Repr, DecidableEq

/-- The three tables plus the AUTO_INCREMENT counter for notification ids. -/
structure DBState where
  notes : List Note
  note_permissions : List Grant
  notifications : List Notification
  nextNotificationId : Nat
deriving Repr, DecidableEq

/-- `databaseService.getNoteById`: `SELECT * FROM notes WHERE id = ?`,
returning the first matching row or null. -/
def getNoteById (s : DBState) (noteId : Nat) : Option Note :=
  (s.notes.filter (fun n => n.id == noteId)).head?

/-- The WHERE clause of the permission lookup in `hasPermission` and of the
ON DUPLICATE KEY UPDATE key in `shareNote`:
`note_id = ? AND user_account_id = ?`. -/
def grantKeyMatches (noteId : Nat) (userId : String) (p : Grant) : Bool :=
  p.note_id == noteId && p.user_account_id == userId

/-- `databaseService.hasPermission(noteId, userId, requiredPermission)`,
the happy path of database-service.js lines 247-284 (the surrounding
try/catch is modelled separately by `hasPermissionE`): deny if the note is
missing; owner has all permissions; a public note grants read; otherwise
look up the grant row and require level `write` for a write check. -/
def hasPermission (s : DBState) (noteId : Nat) (userId : String)
    (requiredPermission : String) : Bool :=
  match getNoteById s noteId with
  | none => false
  | some note =>
    if note.created_by == userId then true
    else if note.is_public && requiredPermission == "read" then true
    else
      match (s.note_permissions.filter (grantKeyMatches noteId userId)).head? with
      | none => false
      | some p =>
        if requiredPermission == "write" then p.permission_type == "write"
        else true

/-- The 5-step reference algorithm written from the specification text
(spec.md section 4.1), to be compared with `hasPermission`: 1. missing note
denies; 2. the owner is allowed; 3. a read requirement on a public note is
allowed; 4. no grant denies; 5. a write requirement needs a `write` grant,
a read requirement accepts any grant. -/
def canAccessSpec (s : DBState) (noteId : Nat) (actorId : String)
    (requiredLevel : String) : Bool :=
  match getNoteById s noteId with
  | none => false
  | some note =>
    if actorId == note.created_by then true
    else if requiredLevel == "read" && note.is_public then true
    else
      match s.note_permissions.find? (grantKeyMatches noteId actorId) with
      | none => false
      | some g =>
        if requiredLevel == "write" then g.permission_type == "write"
        else true

theorem head_filter_eq_find {α : Type} (p : α → Bool) (l : List α) :
    (l.filter p).head? = l.find? p := by
  induction l with
  | nil => rfl
  | cons a l ih =>
    by_cases h : p a <;> simp [List.filter_cons, List.find?_cons, h, ih]

/-- C1: for every note id, actor id, and required level in \x7bread, write\x7d,
the access decision `hasPermission` equals the 5-step reference algorithm
`canAccessSpec` of the specification. -/
theorem c1_hasPermission_matches_reference (s : DBState) (noteId : Nat)
    (actorId requiredLevel : String)
    (_hreq : requiredLevel = "read" ∨ requiredLevel = "write") :
    hasPermission s noteId actorId requiredLevel =
      canAccessSpec s noteId actorId requiredLevel := by
  unfold hasPermission canAccessSpec
  cases getNoteById s noteId with
  | none => rfl
  | some note =>
    simp only [← head_filter_eq_find]
    have howner : (note.created_by == actorId) = (actorId == note.created_by) := by
      simp [eq_comm]
    have hpub : (note.is_public && requiredLevel == "read") =
        (requiredLevel == "read" && note.is_public) := Bool.and_comm _ _
    rw [howner, hpub]

def c1WitnessState : DBState :=
  { notes := [{ id := 1, issue_key := "PROJ-1", title := "T", content := "",
                created_by := "alice", deadline := none, is_public := false,
                status := "open" }],
    note_permissions := [{ note_id := 1, user_account_id := "bob",
                           permission_type := "read", granted_by := "alice" }],
    notifications := [], nextNotificationId := 0 }

theorem c1_hasPermission_matches_reference_witness :
    ("read" = "read" ∨ "read" = "write") ∧
      hasPermission c1WitnessState 1 "bob" "read" =
        canAccessSpec c1WitnessState 1 "bob" "read" ∧
      hasPermission c1WitnessState 1 "bob" "read" = true :=
  ⟨Or.inl rfl,
   c1_hasPermission_matches_reference c1WitnessState 1 "bob" "read" (Or.inl rfl),
   by decide⟩

/-- `databaseService.shareNote`: `INSERT INTO note_permissions ... ON
DUPLICATE KEY UPDATE permission_type = ?`. Because of the UNIQUE KEY on
(note_id, user_account_id), the statement updates the level of an existing
row for that key and inserts a fresh row otherwise. -/
def dbShareNote (s : DBState) (noteId : Nat) (targetUserId : String)
    (permissionType : String) (grantedBy : String) : DBState :=
  if s.note_permissions.any (grantKeyMatches noteId targetUserId) then
    { s with note_permissions := s.note_permissions.map (fun p =>
        if grantKeyMatches noteId targetUserId p
        then { p with permission_type := permissionType } else p) }
  else
    { s with note_permissions := s.note_permissions ++
        [{ note_id := noteId, user_account_id := targetUserId,
           permission_type := permissionType, granted_by := grantedBy }] }

/-- The UNIQUE KEY invariant of the `note_permissions` table: at most one
grant row per (note, grantee) pair. -/
def atMostOneGrant (l : List Grant) : Prop :=
  ∀ noteId userId, (l.filter (grantKeyMatches noteId userId)).length ≤ 1

theorem grantKeyMatches_update (noteId noteId' : Nat) (u u' t : String)
    (p : Grant) :
    grantKeyMatches noteId u
        (if grantKeyMatches noteId' u' p
         then { p with permission_type := t } else p) =
      grantKeyMatches noteId u p := by
  by_cases h : grantKeyMatches noteId' u' p = true
  · rw [if_pos h]
    rfl
  · rw [if_neg h]

theorem filter_key_dbShareNote_map (l : List Grant) (noteId noteId' : Nat)
    (u u' t : String) :
    (l.map (fun p => if grantKeyMatches noteId' u' p
        then { p with permission_type := t } else p)).filter
          (grantKeyMatches noteId u) =
      (l.filter (grantKeyMatches noteId u)).map
        (fun p => if grantKeyMatches noteId' u' p
          then { p with permission_type := t } else p) := by
  rw [List.filter_map]
  have hfun : (grantKeyMatches noteId u ∘ fun p =>
      if grantKeyMatches noteId' u' p
      then { p with permission_type := t } else p) =
      grantKeyMatches noteId u := by
    funext p
    simp only [Function.comp_apply, grantKeyMatches_update]
  rw [hfun]

theorem dbShareNote_preserves_atMostOneGrant (s : DBState) (noteId : Nat)
    (u t gb : String) (h : atMostOneGrant s.note_permissions) :
    atMostOneGrant (dbShareNote s noteId u t gb).note_permissions := by
  intro nid uid
  unfold dbShareNote
  by_cases hany : s.note_permissions.any (grantKeyMatches noteId u) = true
  · simp only [hany, if_pos]
    rw [filter_key_dbShareNote_map, List.length_map]
    exact h nid uid
  · simp only [hany, if_neg, Bool.not_eq_true]
    rw [List.filter_append]
    by_cases hkey : grantKeyMatches nid uid
        { note_id := noteId, user_account_id := u,
          permission_type := t, granted_by := gb : Grant } = true
    · have hpair : noteId = nid ∧ u = uid := by
        simpa [grantKeyMatches] using hkey
      obtain ⟨h1, h2⟩ := hpair
      subst h1
      subst h2
      have hnil : s.note_permissions.filter (grantKeyMatches noteId u) = [] := by
        rw [List.filter_eq_nil_iff]
        intro p hp hmatch
        exact absurd (List.any_eq_true.mpr ⟨p, hp, hmatch⟩) hany
      simp [hnil, hkey]
    · simp only [List.filter_cons, hkey, if_neg, List.filter_nil,
        List.append_nil, Bool.false_eq_true, not_false_eq_true]
      exact h nid uid

theorem dbShareNote_notes (s : DBState) (noteId : Nat) (u t gb : String) :
    (dbShareNote s noteId u t gb).notes = s.notes := by
  unfold dbShareNote
  by_cases hany : s.note_permissions.any (grantKeyMatches noteId u) = true <;>
    simp [hany]

theorem dbShareNote_filter_key (s : DBState) (noteId : Nat) (u t gb : String)
    (h : atMostOneGrant s.note_permissions) :
    ((dbShareNote s noteId u t gb).note_permissions.filter
        (grantKeyMatches noteId u)).map Grant.permission_type = [t] := by
  unfold dbShareNote
  by_cases hany : s.note_permissions.any (grantKeyMatches noteId u) = true
  · simp only [hany, if_pos]
    rw [filter_key_dbShareNote_map]
    obtain ⟨p, hp, hmatch⟩ := List.any_eq_true.mp hany
    have hmem : p ∈ s.note_permissions.filter (grantKeyMatches noteId u) :=
      List.mem_filter.mpr ⟨hp, hmatch⟩
    have hlen1 : (s.note_permissions.filter (grantKeyMatches noteId u)).length = 1 :=
      Nat.le_antisymm (h noteId u)
        (List.length_pos.mpr (List.ne_nil_of_mem hmem))
    obtain ⟨q, hq⟩ := List.length_eq_one.mp hlen1
    have hqmatch : grantKeyMatches noteId u q = true := by
      have : q ∈ s.note_permissions.filter (grantKeyMatches noteId u) := by
        rw [hq]; exact List.mem_singleton_self q
      exact (List.mem_filter.mp this).2
    rw [hq]
    simp [hqmatch]
  · simp only [hany, if_neg, Bool.not_eq_true]
    have hnil : s.note_permissions.filter (grantKeyMatches noteId u) = [] := by
      rw [List.filter_eq_nil_iff]
      intro p hp hmatch
      exact absurd (List.any_eq_true.mpr ⟨p, hp, hmatch⟩) hany
    rw [List.filter_append, hnil]
    simp [grantKeyMatches]

/-- C2: re-sharing overwrites instead of duplicating. A single share
operation preserves the at-most-one-grant-per-(note, grantee) invariant;
after `share(note, U, read)` followed by `share(note, U, write)` exactly one
grant row exists for (note, U) and its level is `write`; and that grantee
then passes a write-gated `hasPermission` check. -/
theorem c2_share_overwrites_single_grant (s : DBState) (noteId : Nat)
    (u gb gb' : String) (note : Note)
    (hinv : atMostOneGrant s.note_permissions)
    (hnote : getNoteById s noteId = some note) :
    (∀ t g, atMostOneGrant (dbShareNote s noteId u t g).note_permissions) ∧
    ((dbShareNote (dbShareNote s noteId u "read" gb) noteId u "write"
        gb').note_permissions.filter (grantKeyMatches noteId u)).map
          Grant.permission_type = ["write"] ∧
    hasPermission (dbShareNote (dbShareNote s noteId u "read" gb) noteId u
        "write" gb') noteId u "write" = true := by
  have hinv1 : atMostOneGrant
      (dbShareNote s noteId u "read" gb).note_permissions :=
    dbShareNote_preserves_atMostOneGrant s noteId u "read" gb hinv
  have hfilter := dbShareNote_filter_key
    (dbShareNote s noteId u "read" gb) noteId u "write" gb' hinv1
  refine ⟨fun t g => dbShareNote_preserves_atMostOneGrant s noteId u t g hinv,
    hfilter, ?_⟩
  set s2 := dbShareNote (dbShareNote s noteId u "read" gb) noteId u "write" gb'
  have hnotes : s2.notes = s.notes := by
    rw [dbShareNote_notes, dbShareNote_notes]
  have hnote2 : getNoteById s2 noteId = some note := by
    unfold getNoteById
    rw [hnotes]
    exact hnote
  obtain ⟨g2, hg2⟩ : ∃ g2, s2.note_permissions.filter
      (grantKeyMatches noteId u) = [g2] := by
    have hlen : (s2.note_permissions.filter
        (grantKeyMatches noteId u)).length = 1 := by
      have hc := congrArg List.length hfilter
      simpa using hc
    exact List.length_eq_one.mp hlen
  have hg2type : g2.permission_type = "write" := by
    rw [hg2] at hfilter
    simpa using hfilter
  unfold hasPermission
  rw [hnote2, hg2]
  by_cases howner : note.created_by == u
  · simp [howner]
  · simp [howner, hg2type]

def c2WitnessState : DBState :=
  { notes := [{ id := 1, issue_key := "PROJ-1", title := "T", content := "",
                created_by := "alice", deadline := none, is_public := false,
                status := "open" }],
    note_permissions := [], notifications := [], nextNotificationId := 0 }

theorem c2_share_overwrites_single_grant_witness :
    atMostOneGrant c2WitnessState.note_permissions ∧
      getNoteById c2WitnessState 1 =
        some { id := 1, issue_key := "PROJ-1", title := "T", content := "",
               created_by := "alice", deadline := none, is_public := false,
               status := "open" } ∧
      ((dbShareNote (dbShareNote c2WitnessState 1 "bob" "read" "alice") 1
          "bob" "write" "alice").note_permissions.filter
            (grantKeyMatches 1 "bob")).map Grant.permission_type = ["write"] ∧
      hasPermission (dbShareNote (dbShareNote c2WitnessState 1 "bob" "read"
          "alice") 1 "bob" "write" "alice") 1 "bob" "write" = true := by
  have hinv : atMostOneGrant c2WitnessState.note_permissions := by
    intro nid uid
    simp [c2WitnessState]
  have h := c2_share_overwrites_single_grant c2WitnessState 1 "bob" "alice"
    "alice"
    { id := 1, issue_key := "PROJ-1", title := "T", content := "",
      created_by := "alice", deadline := none, is_public := false,
      status := "open" } hinv (by decide)
  exact ⟨hinv, by decide, h.2.1, h.2.2⟩

/-- `databaseService.deleteNotificationsByNoteId`:
`DELETE FROM notifications WHERE note_id = ?`. -/
def deleteNotificationsByNote (s : DBState) (noteId : Nat) : DBState :=
  { s with notifications := s.notifications.filter (fun n => !(n.note_id == noteId)) }

/-- The dedup-by-first-insertion behaviour of the JavaScript `Set` used by
`getUsersToNotify`: keeps the first occurrence of each element. -/
def dedupAux (seen : List String) : List String → List String
  | [] => []
  | a :: rest =>
    if seen.contains a then dedupAux seen rest
    else a :: dedupAux (a :: seen) rest

/-- `notificationService.getUsersToNotify(noteId, creatorId)`: a `Set`
seeded with the creator, extended with every `user_account_id` holding a
grant on the note, returned in insertion order. -/
def usersToNotify (s : DBState) (noteId : Nat) (creatorId : String) : List String :=
  dedupAux []
    (creatorId ::
      (s.note_permissions.filter (fun p => p.note_id == noteId)).map
        Grant.user_account_id)

/-- One row inserted by `databaseService.createNotification` on behalf of
`createDeadlineNotification`: type `deadline_reminder`, fixed title, message
referencing the issue key, unsent. -/
def deadlineRow (rowId : Nat) (noteId : Nat) (issueKey : String)
    (userId : String) : Notification :=
  { id := rowId, user_account_id := userId, note_id := noteId,
    kind := "deadline_reminder",
    title := "Note Deadline Approaching",
    message := "Your note deadline is approaching. Issue: " ++ issueKey,
    is_read := false }

/-- The loop of `createDeadlineNotification` that inserts one notification
row per recipient, consuming AUTO_INCREMENT ids. -/
def appendDeadlineRows (s : DBState) (noteId : Nat) (issueKey : String) :
    List String → DBState
  | [] => s
  | u :: rest =>
    appendDeadlineRows
      { s with
        notifications := s.notifications ++
          [deadlineRow s.nextNotificationId noteId issueKey u],
        nextNotificationId := s.nextNotificationId + 1 }
      noteId issueKey rest

/-- The rows produced by `appendDeadlineRows` starting at a given id. -/
def deadlineRows (startId : Nat) (noteId : Nat) (issueKey : String) :
    List String → List Notification
  | [] => []
  | u :: rest =>
    deadlineRow startId noteId issueKey u ::
      deadlineRows (startId + 1) noteId issueKey rest

/-- The `new Date(deadline)` conversion applied by
`createDeadlineNotification`: SQL NULL becomes the epoch (`new Date(null)`
is time 0). -/
def jsDateMillis : Option Int → Int
  | none => 0
  | some t => t

/-- `notificationService.createDeadlineNotification(noteId, deadline,
creatorId, issueKey)` evaluated at time `now`: skips entirely unless the
deadline is strictly in the future, otherwise inserts one unsent
`deadline_reminder` row for the creator and every grantee. -/
def createDeadlineNotification (s : DBState) (noteId : Nat)
    (deadline : Option Int) (creatorId : String) (issueKey : String)
    (now : Int) : DBState :=
  let deadlineDate := jsDateMillis deadline
  if deadlineDate ≤ now then s
  else appendDeadlineRows s noteId issueKey (usersToNotify s noteId creatorId)

/-- `notificationService.updateNotificationsForDeadline(noteId, newDeadline,
creatorId, issueKey)`: deletes every notification row of the note, then
recreates rows only when the new deadline is truthy (non-null). -/
def updateNotificationsForDeadline (s : DBState) (noteId : Nat)
    (newDeadline : Option Int) (creatorId : String) (issueKey : String)
    (now : Int) : DBState :=
  let s1 := deleteNotificationsByNote s noteId
  match newDeadline with
  | some d => createDeadlineNotification s1 noteId (some d) creatorId issueKey now
  | none => s1

/-- `hoursUntilDeadline = (deadline - now) / (1000 * 60 * 60)` from
`getPendingNotifications`, as an exact rational. -/
def hoursUntilDeadline (deadline now : Int) : ℚ :=
  ((deadline - now : Int) : ℚ) / (1000 * 60 * 60)

/-- One element of the list returned by
`notificationService.getPendingNotifications`. -/
structure DueEntry where
  notification : Notification
  note : Note
  hoursUntilDeadline : ℚ
deriving Repr, DecidableEq

/-- The body of the scan loop in `getPendingNotifications` for one unsent
notification: load the note, skip when the note or its deadline is missing,
include the entry when the hour delta is at most 24. -/
def duePendingStep (s : DBState) (now : Int) (n : Notification) :
    Option DueEntry :=
  match getNoteById s n.note_id with
  | none => none
  | some note =>
    match note.deadline with
    | none => none
    | some d =>
      if hoursUntilDeadline d now ≤ 24 then
        some { notification := n, note := note,
               hoursUntilDeadline := hoursUntilDeadline d now }
      else none

/-- `notificationService.getPendingNotifications()` at time `now`: all
unsent notifications filtered through `duePendingStep`. -/
def getPendingNotificationsService (s : DBState) (now : Int) : List DueEntry :=
  (s.notifications.filter (fun n => !n.is_read)).filterMap (duePendingStep s now)

theorem hoursUntilDeadline_le_24 (d now : Int) :
    hoursUntilDeadline d now ≤ 24 ↔ d - now ≤ 86400000 := by
  unfold hoursUntilDeadline
  rw [div_le_iff₀ (by norm_num : (0:ℚ) < 1000 * 60 * 60)]
  have h : (24 : ℚ) * (1000 * 60 * 60) = ((86400000 : ℤ) : ℚ) := by norm_num
  rw [h, Int.cast_le]

theorem mem_getPendingNotifications (s : DBState) (now : Int) (e : DueEntry) :
    e ∈ getPendingNotificationsService s now ↔
      e.notification ∈ s.notifications ∧ e.notification.is_read = false ∧
      getNoteById s e.notification.note_id = some e.note ∧
      ∃ d, e.note.deadline = some d ∧
        e.hoursUntilDeadline = hoursUntilDeadline d now ∧
        e.hoursUntilDeadline ≤ 24 := by
  unfold getPendingNotificationsService
  rw [List.mem_filterMap]
  constructor
  · rintro ⟨n, hn, hstep⟩
    obtain ⟨hmem, hunread⟩ := List.mem_filter.mp hn
    unfold duePendingStep at hstep
    rcases hnote : getNoteById s n.note_id with _ | note
    · rw [hnote] at hstep; exact absurd hstep (by simp)
    · rw [hnote] at hstep
      dsimp only at hstep
      rcases hdl : note.deadline with _ | d
      · rw [hdl] at hstep; exact absurd hstep (by simp)
      · rw [hdl] at hstep
        dsimp only at hstep
        by_cases hle : hoursUntilDeadline d now ≤ 24
        · rw [if_pos hle] at hstep
          obtain rfl := (Option.some_inj.mp hstep).symm
          exact ⟨hmem, by simpa using hunread, hnote,
            d, hdl, rfl, hle⟩
        · rw [if_neg hle] at hstep
          exact absurd hstep (by simp)
  · rintro ⟨hmem, hunread, hnote, d, hdl, hhours, hle⟩
    refine ⟨e.notification, List.mem_filter.mpr ⟨hmem, by simp [hunread]⟩, ?_⟩
    unfold duePendingStep
    rw [hnote]
    dsimp only
    rw [hdl]
    dsimp only
    rw [if_pos (hhours ▸ hle)]
    cases e with
    | mk n note h =>
      simp only at hnote hdl hhours ⊢
      rw [hhours]

/-- A state used to exercise the boundary cases of the due-notification
window, evaluated at `now = 3600000` ms: notes 1-5 have deadlines exactly
24, 1, 0, -5 and 25 hours away, note 6 has no deadline, notification 7
references a missing note and notification 8 is already sent. -/
def c6State : DBState :=
  { notes :=
      [{ id := 1, issue_key := "PROJ-1", title := "a", content := "",
         created_by := "alice", deadline := some 90000000,
         is_public := false, status := "open" },
       { id := 2, issue_key := "PROJ-1", title := "b", content := "",
         created_by := "alice", deadline := some 7200000,
         is_public := false, status := "open" },
       { id := 3, issue_key := "PROJ-1", title := "c", content := "",
         created_by := "alice", deadline := some 3600000,
         is_public := false, status := "open" },
       { id := 4, issue_key := "PROJ-1", title := "d", content := "",
         created_by := "alice", deadline := some (-14400000),
         is_public := false, status := "open" },
       { id := 5, issue_key := "PROJ-1", title := "e", content := "",
         created_by := "alice", deadline := some 93600000,
         is_public := false, status := "open" },
       { id := 6, issue_key := "PROJ-1", title := "f", content := "",
         created_by := "alice", deadline := none,
         is_public := false, status := "open" }],
    note_permissions := [],
    notifications :=
      [{ id := 1, user_account_id := "alice", note_id := 1,
         kind := "deadline_reminder", title := "t", message := "m",
         is_read := false },
       { id := 2, user_account_id := "alice", note_id := 2,
         kind := "deadline_reminder", title := "t", message := "m",
         is_read := false },
       { id := 3, user_account_id := "alice", note_id := 3,
         kind := "deadline_reminder", title := "t", message := "m",
         is_read := false },
       { id := 4, user_account_id := "alice", note_id := 4,
         kind := "deadline_reminder", title := "t", message := "m",
         is_read := false },
       { id := 5, user_account_id := "alice", note_id := 5,
         kind := "deadline_reminder", title := "t", message := "m",
         is_read := false },
       { id := 6, user_account_id := "alice", note_id := 6,
         kind := "deadline_reminder", title := "t", message := "m",
         is_read := false },
       { id := 7, user_account_id := "alice", note_id := 99,
         kind := "deadline_reminder", title := "t", message := "m",
         is_read := false },
       { id := 8, user_account_id := "alice", note_id := 1,
         kind := "deadline_reminder", title := "t", message := "m",
         is_read := true }],
    nextNotificationId := 9 }

/-- C6: `duePending` returns exactly the unsent notifications whose note
exists and has a deadline with `hoursUntilDeadline ≤ 24`; concretely,
entries at exactly 24, 1, 0 and -5 hours are included, one at 25 hours is
excluded, and notifications with a missing note, a deadline-less note, or
the sent flag set are skipped. -/
theorem c6_duePending_window :
    (∀ (s : DBState) (now : Int) (e : DueEntry),
      e ∈ getPendingNotificationsService s now ↔
        e.notification ∈ s.notifications ∧ e.notification.is_read = false ∧
        getNoteById s e.notification.note_id = some e.note ∧
        ∃ d, e.note.deadline = some d ∧
          e.hoursUntilDeadline = hoursUntilDeadline d now ∧
          e.hoursUntilDeadline ≤ 24) ∧
    (getPendingNotificationsService c6State 3600000).map
        (fun e => e.notification.id) = [1, 2, 3, 4] ∧
    (getPendingNotificationsService c6State 3600000).map
        DueEntry.hoursUntilDeadline = [24, 1, 0, -5] := by
  refine ⟨mem_getPendingNotifications, ?_, ?_⟩ <;>
    norm_num [getPendingNotificationsService, duePendingStep, getNoteById,
      c6State, List.filter_cons, List.filter_nil, List.filterMap_cons,
      hoursUntilDeadline]

/-- `databaseService.deleteNote`: deletes the grant rows of the note first
(`DELETE FROM note_permissions WHERE note_id = ?`), then the note row
(`DELETE FROM notes WHERE id = ?`), returning whether a note row was
affected. -/
def dbDeleteNote (s : DBState) (noteId : Nat) : DBState × Bool :=
  let s1 := { s with note_permissions :=
    s.note_permissions.filter (fun p => !(p.note_id == noteId)) }
  let affected := s1.notes.any (fun n => n.id == noteId)
  let s2 := { s1 with notes := s1.notes.filter (fun n => !(n.id == noteId)) }
  (s2, affected)

/-- `notesService.deleteNote(noteId, userId)`: requires the note to exist
and the actor to be its owner, deletes the note's notification rows (a
failure there, injected through `notifDeleteFails`, is logged and does not
block the rest), then deletes the grant rows and the note row. -/
def deleteNoteService (s : DBState) (noteId : Nat) (userId : String)
    (notifDeleteFails : Bool) : Except String (DBState × Bool) :=
  match getNoteById s noteId with
  | none => Except.error "Note not found"
  | some note =>
    if !(note.created_by == userId) then
      Except.error "Only the note owner can delete it"
    else
      let s1 := if notifDeleteFails then s else deleteNotificationsByNote s noteId
      Except.ok (dbDeleteNote s1 noteId)

theorem deleteNotificationsByNote_notes (s : DBState) (noteId : Nat) :
    (deleteNotificationsByNote s noteId).notes = s.notes := rfl

theorem deleteNotificationsByNote_perms (s : DBState) (noteId : Nat) :
    (deleteNotificationsByNote s noteId).note_permissions =
      s.note_permissions := rfl

theorem hasPermission_of_missing_note (s : DBState) (noteId : Nat)
    (actor req : String) (h : getNoteById s noteId = none) :
    hasPermission s noteId actor req = false := by
  unfold hasPermission
  rw [h]

/-- C3: `deleteNote` succeeds only for the owner (a non-owner attempt,
grants notwithstanding, is an authorization error), and on success removes
the note's notification rows, then its grant rows, then the note row:
afterwards `canAccess` denies every actor on that note (note not found) and
`duePending` never returns an entry referencing it, even when the
notification-cleanup step failed and was skipped. -/
theorem c3_deleteNote_owner_only_cascades (s : DBState) (noteId : Nat)
    (userId : String) (notifDeleteFails : Bool) (now : Int) :
    (getNoteById s noteId = none →
      deleteNoteService s noteId userId notifDeleteFails =
        Except.error "Note not found") ∧
    (∀ note, getNoteById s noteId = some note → note.created_by ≠ userId →
      deleteNoteService s noteId userId notifDeleteFails =
        Except.error "Only the note owner can delete it") ∧
    (∀ note, getNoteById s noteId = some note → note.created_by = userId →
      ∃ s', deleteNoteService s noteId userId notifDeleteFails =
          Except.ok (s', true) ∧
        getNoteById s' noteId = none ∧
        (∀ p ∈ s'.note_permissions, p.note_id ≠ noteId) ∧
        (∀ actor req, hasPermission s' noteId actor req = false) ∧
        (∀ e ∈ getPendingNotificationsService s' now,
          e.notification.note_id ≠ noteId ∧ e.note.id ≠ noteId) ∧
        (notifDeleteFails = false →
          ∀ nn ∈ s'.notifications, nn.note_id ≠ noteId)) := by
  refine ⟨fun hnone => ?_, fun note hnote hown => ?_, fun note hnote hown => ?_⟩
  · unfold deleteNoteService
    rw [hnone]
  · unfold deleteNoteService
    rw [hnote]
    dsimp only
    have hbeq : (note.created_by == userId) = false := by
      simp [hown]
    rw [hbeq]
    rfl
  · unfold deleteNoteService
    rw [hnote]
    dsimp only
    have hbeq : (note.created_by == userId) = true := by simp [hown]
    rw [hbeq]
    simp only [Bool.not_true, Bool.false_eq_true, if_neg, not_false_eq_true]
    set s1 := if notifDeleteFails then s
      else deleteNotificationsByNote s noteId with hs1
    have hs1notes : s1.notes = s.notes := by
      rw [hs1]
      by_cases hf : notifDeleteFails <;> simp [hf, deleteNotificationsByNote_notes]
    have haff : s1.notes.any (fun n => n.id == noteId) = true := by
      rw [hs1notes]
      unfold getNoteById at hnote
      rcases hh : s.notes.filter (fun n => n.id == noteId) with _ | ⟨a, l⟩
      · rw [hh] at hnote
        exact absurd hnote (by simp)
      · have hamem : a ∈ s.notes.filter (fun n => n.id == noteId) := by
          rw [hh]; exact List.mem_cons_self a l
        obtain ⟨hmem, hkey⟩ := List.mem_filter.mp hamem
        exact List.any_eq_true.mpr ⟨a, hmem, hkey⟩
    refine ⟨(dbDeleteNote s1 noteId).1, ?_, ?_, ?_, ?_, ?_, ?_⟩
    · unfold dbDeleteNote
      dsimp only
      rw [haff]
    · unfold getNoteById dbDeleteNote
      dsimp only
      rw [List.filter_filter]
      have : (fun n : Note => (n.id == noteId) && !(n.id == noteId)) =
          fun _ : Note => false := by
        funext n
        by_cases h : n.id == noteId <;> simp [h]
      rw [this]
      simp
    · intro p hp
      unfold dbDeleteNote at hp
      dsimp only at hp
      obtain ⟨_, hkey⟩ := List.mem_filter.mp hp
      simpa using hkey
    · intro actor req
      apply hasPermission_of_missing_note
      unfold getNoteById dbDeleteNote
      dsimp only
      rw [List.filter_filter]
      have : (fun n : Note => (n.id == noteId) && !(n.id == noteId)) =
          fun _ : Note => false := by
        funext n
        by_cases h : n.id == noteId <;> simp [h]
      rw [this]
      simp
    · intro e he
      have hchar := (mem_getPendingNotifications _ now e).mp he
      obtain ⟨_, _, hnote', _⟩ := hchar
      have hmiss : getNoteById (dbDeleteNote s1 noteId).1 noteId = none := by
        unfold getNoteById dbDeleteNote
        dsimp only
        rw [List.filter_filter]
        have : (fun n : Note => (n.id == noteId) && !(n.id == noteId)) =
            fun _ : Note => false := by
          funext n
          by_cases h : n.id == noteId <;> simp [h]
        rw [this]
        simp
      have hid : e.note.id = e.notification.note_id := by
        unfold getNoteById at hnote'
        rcases hh : (dbDeleteNote s1 noteId).1.notes.filter
            (fun n => n.id == e.notification.note_id) with _ | ⟨a, l⟩
        · rw [hh] at hnote'
          exact absurd hnote' (by simp)
        · rw [hh] at hnote'
          have hae : a = e.note := by simpa using hnote'
          have hamem : a ∈ (dbDeleteNote s1 noteId).1.notes.filter
              (fun n => n.id == e.notification.note_id) := by
            rw [hh]; exact List.mem_cons_self a l
          obtain ⟨_, hkey⟩ := List.mem_filter.mp hamem
          rw [← hae]
          simpa using hkey
      have hne : e.notification.note_id ≠ noteId := by
        intro heq
        rw [heq] at hnote'
        rw [hnote'] at hmiss
        exact absurd hmiss (by simp)
      exact ⟨hne, fun heq => hne (hid ▸ heq)⟩
    · intro hnf nn hnn
      rw [hs1] at hnn
      unfold dbDeleteNote at hnn
      dsimp only at hnn
      rw [hnf] at hnn
      simp only [if_neg, Bool.false_eq_true, not_false_eq_true] at hnn
      unfold deleteNotificationsByNote at hnn
      dsimp only at hnn
      obtain ⟨_, hkey⟩ := List.mem_filter.mp hnn
      simpa using hkey

def c3Note : Note :=
  { id := 1, issue_key := "PROJ-1", title := "T", content := "",
    created_by := "alice", deadline := some 7200000,
    is_public := false, status := "open" }

def c3WitnessState : DBState :=
  { notes := [c3Note],
    note_permissions := [{ note_id := 1, user_account_id := "bob",
                           permission_type := "write", granted_by := "alice" }],
    notifications := [{ id := 1, user_account_id := "alice", note_id := 1,
                        kind := "deadline_reminder", title := "t",
                        message := "m", is_read := false }],
    nextNotificationId := 2 }

theorem c3_deleteNote_owner_only_cascades_witness :
    deleteNoteService c3WitnessState 1 "bob" false =
        Except.error "Only the note owner can delete it" ∧
      ∃ s', deleteNoteService c3WitnessState 1 "alice" false =
          Except.ok (s', true) ∧
        getNoteById s' 1 = none ∧
        (∀ p ∈ s'.note_permissions, p.note_id ≠ 1) ∧
        (∀ actor req, hasPermission s' 1 actor req = false) ∧
        (∀ e ∈ getPendingNotificationsService s' 0,
          e.notification.note_id ≠ 1 ∧ e.note.id ≠ 1) ∧
        (false = false → ∀ nn ∈ s'.notifications, nn.note_id ≠ 1) := by
  have h := c3_deleteNote_owner_only_cascades c3WitnessState 1 "bob" false 0
  have h2 := c3_deleteNote_owner_only_cascades c3WitnessState 1 "alice" false 0
  refine ⟨?_, ?_⟩
  · exact h.2.1 c3Note (by decide) (by decide)
  · obtain ⟨s', hok, rest⟩ := h2.2.2 c3Note (by decide) rfl
    exact ⟨s', hok, rest⟩

/-- Freshness of the AUTO_INCREMENT counter: every stored notification id
is below the next id to be assigned. -/
def freshNotificationIds (s : DBState) : Prop :=
  ∀ n ∈ s.notifications, n.id < s.nextNotificationId

theorem appendDeadlineRows_spec (noteId : Nat) (issueKey : String) :
    ∀ (us : List String) (s : DBState),
      (appendDeadlineRows s noteId issueKey us).notifications =
          s.notifications ++ deadlineRows s.nextNotificationId noteId issueKey us ∧
        (appendDeadlineRows s noteId issueKey us).notes = s.notes ∧
        (appendDeadlineRows s noteId issueKey us).note_permissions =
          s.note_permissions ∧
        (appendDeadlineRows s noteId issueKey us).nextNotificationId =
          s.nextNotificationId + us.length := by
  intro us
  induction us with
  | nil => intro s; simp [appendDeadlineRows, deadlineRows]
  | cons u rest ih =>
    intro s
    obtain ⟨h1, h2, h3, h4⟩ := ih
      { s with
        notifications := s.notifications ++
          [deadlineRow s.nextNotificationId noteId issueKey u],
        nextNotificationId := s.nextNotificationId + 1 }
    refine ⟨?_, h2, h3, ?_⟩
    · rw [appendDeadlineRows, h1]
      simp [deadlineRows]
    · rw [appendDeadlineRows, h4]
      simp
      omega

theorem mem_deadlineRows (noteId : Nat) (issueKey : String) :
    ∀ (us : List String) (startId : Nat) (r : Notification),
      r ∈ deadlineRows startId noteId issueKey us →
        startId ≤ r.id ∧ r.note_id = noteId ∧ r.is_read = false ∧
        r.message = "Your note deadline is approaching. Issue: " ++ issueKey ∧
        r.title = "Note Deadline Approaching" ∧
        r.kind = "deadline_reminder" := by
  intro us
  induction us with
  | nil => intro startId r hr; simp [deadlineRows] at hr
  | cons u rest ih =>
    intro startId r hr
    rw [deadlineRows] at hr
    rcases List.mem_cons.mp hr with h | h
    · subst h
      exact ⟨Nat.le_refl _, rfl, rfl, rfl, rfl, rfl⟩
    · obtain ⟨hle, hrest⟩ := ih (startId + 1) r h
      exact ⟨Nat.le_of_succ_le hle, hrest⟩

theorem deadlineRows_map_user (noteId : Nat) (issueKey : String) :
    ∀ (us : List String) (startId : Nat),
      (deadlineRows startId noteId issueKey us).map
        Notification.user_account_id = us := by
  intro us
  induction us with
  | nil => intro startId; simp [deadlineRows]
  | cons u rest ih =>
    intro startId
    rw [deadlineRows]
    simp [deadlineRow, ih]

theorem mem_dedupAux (a : String) :
    ∀ (l : List String) (seen : List String),
      a ∈ dedupAux seen l ↔ a ∈ l ∧ a ∉ seen := by
  intro l
  induction l with
  | nil => intro seen; simp [dedupAux]
  | cons b rest ih =>
    intro seen
    rw [dedupAux]
    by_cases hb : seen.contains b
    · rw [if_pos hb, ih]
      have hbmem : b ∈ seen := List.elem_iff.mp hb
      constructor
      · rintro ⟨hmem, hns⟩
        exact ⟨List.mem_cons_of_mem b hmem, hns⟩
      · rintro ⟨hmem, hns⟩
        rcases List.mem_cons.mp hmem with h | h
        · exact absurd (h ▸ hbmem) hns
        · exact ⟨h, hns⟩
    · rw [if_neg hb]
      rw [List.mem_cons, ih (b :: seen)]
      have hbnm : b ∉ seen := fun h => hb (List.elem_iff.mpr h)
      by_cases hab : a = b
      · subst hab
        simp [hbnm]
      · simp [hab, List.mem_cons]

theorem nodup_dedupAux :
    ∀ (l : List String) (seen : List String), (dedupAux seen l).Nodup := by
  intro l
  induction l with
  | nil => intro seen; simp [dedupAux]
  | cons b rest ih =>
    intro seen
    rw [dedupAux]
    by_cases hb : seen.contains b
    · rw [if_pos hb]
      exact ih seen
    · rw [if_neg hb]
      refine List.nodup_cons.mpr ⟨?_, ih (b :: seen)⟩
      intro hmem
      exact ((mem_dedupAux b rest (b :: seen)).mp hmem).2 (List.mem_cons_self b seen)

theorem mem_usersToNotify (s : DBState) (noteId : Nat) (creatorId : String)
    (u : String) :
    u ∈ usersToNotify s noteId creatorId ↔
      u = creatorId ∨ ∃ g ∈ s.note_permissions,
        g.note_id = noteId ∧ g.user_account_id = u := by
  unfold usersToNotify
  rw [mem_dedupAux]
  simp only [List.not_mem_nil, not_false_iff, and_true, List.mem_cons,
    List.mem_map, List.mem_filter]
  constructor
  · rintro (h | ⟨g, ⟨hg, hkey⟩, hu⟩)
    · exact Or.inl h
    · exact Or.inr ⟨g, hg, by simpa using hkey, hu⟩
  · rintro (h | ⟨g, hg, hkey, hu⟩)
    · exact Or.inl h
    · exact Or.inr ⟨g, ⟨hg, by simpa using hkey⟩, hu⟩

theorem nodup_usersToNotify (s : DBState) (noteId : Nat) (creatorId : String) :
    (usersToNotify s noteId creatorId).Nodup :=
  nodup_dedupAux _ []

theorem createDeadlineNotification_skip (s : DBState) (noteId : Nat)
    (deadline : Option Int) (creatorId issueKey : String) (now : Int)
    (h : jsDateMillis deadline ≤ now) :
    createDeadlineNotification s noteId deadline creatorId issueKey now = s := by
  unfold createDeadlineNotification
  rw [if_pos h]

theorem createDeadlineNotification_future (s : DBState) (noteId : Nat)
    (d : Int) (creatorId issueKey : String) (now : Int) (h : now < d) :
    (createDeadlineNotification s noteId (some d) creatorId issueKey
        now).notifications =
      s.notifications ++ deadlineRows s.nextNotificationId noteId issueKey
        (usersToNotify s noteId creatorId) := by
  unfold createDeadlineNotification
  rw [if_neg (by simpa [jsDateMillis] using Int.not_le.mpr h)]
  exact (appendDeadlineRows_spec noteId issueKey _ s).1

/-- The partial-update payload of `notesService.updateNote`. An outer
`none` means the field is absent from the request (JavaScript `undefined`,
left untouched); for `deadline`, `some none` is an explicit null (clear the
deadline) and `some (some d)` a new value. -/
structure UpdatePayload where
  title : Option String
  content : Option String
  deadline : Option (Option Int)
  isPublic : Option Bool
  status : Option String

/-- The `updates` object assembled by `notesService.updateNote` applied to
one note row by `databaseService.updateNote`: only present fields change,
and the title is stored trimmed. -/
def applyNoteUpdates (p : UpdatePayload) (n : Note) : Note :=
  { n with
    title := match p.title with | some t => t.trim | none => n.title,
    content := p.content.getD n.content,
    deadline := match p.deadline with | some nd => nd | none => n.deadline,
    is_public := p.isPublic.getD n.is_public,
    status := p.status.getD n.status }

/-- `databaseService.updateNote(noteId, updates)`:
`UPDATE notes SET ... WHERE id = ?`. -/
def dbUpdateNote (s : DBState) (noteId : Nat) (p : UpdatePayload) : DBState :=
  { s with notes := s.notes.map (fun n =>
      if n.id == noteId then applyNoteUpdates p n else n) }

/-- The title validation of `updateNote`: a present title that trims to the
empty string is rejected. -/
def titleBlankUpdate (p : UpdatePayload) : Bool :=
  match p.title with
  | some t => t.trim == ""
  | none => false

/-- The status validation of `updateNote`: a present status must be `open`
or `completed`. -/
def statusInvalidUpdate (p : UpdatePayload) : Bool :=
  match p.status with
  | some st => !(st == "open" || st == "completed")
  | none => false

/-- `notesService.updateNote` (the variant that maintains reminders):
write-permission check, note lookup, field validation, the partial row
update, and — exactly when the deadline field is present in the payload —
`updateNotificationsForDeadline` for the note's owner and grantees. -/
def updateNoteService (s : DBState) (noteId : Nat) (p : UpdatePayload)
    (userId : String) (now : Int) : Except String DBState :=
  if !(hasPermission s noteId userId "write") then
    Except.error "Access denied - write permission required"
  else
    match getNoteById s noteId with
    | none => Except.error "Note not found"
    | some note =>
      if titleBlankUpdate p then Except.error "Title cannot be empty"
      else if statusInvalidUpdate p then Except.error "Invalid status"
      else
        let s1 := dbUpdateNote s noteId p
        match p.deadline with
        | some nd =>
          Except.ok (updateNotificationsForDeadline s1 noteId nd
            note.created_by note.issue_key now)
        | none => Except.ok s1

theorem dbUpdateNote_notifications (s : DBState) (noteId : Nat)
    (p : UpdatePayload) : (dbUpdateNote s noteId p).notifications =
      s.notifications := rfl

theorem dbUpdateNote_perms (s : DBState) (noteId : Nat) (p : UpdatePayload) :
    (dbUpdateNote s noteId p).note_permissions = s.note_permissions := rfl

theorem dbUpdateNote_nextId (s : DBState) (noteId : Nat) (p : UpdatePayload) :
    (dbUpdateNote s noteId p).nextNotificationId = s.nextNotificationId := rfl

theorem filter_key_of_deleted (l : List Notification) (noteId : Nat) :
    ((l.filter (fun n => !(n.note_id == noteId))).filter
      (fun n => n.note_id == noteId)) = [] := by
  rw [List.filter_filter, List.filter_eq_nil_iff]
  intro n _ h
  simp at h

theorem not_mem_filter_not_key (l : List Notification) (noteId : Nat)
    (r : Notification) (hr : r.note_id = noteId) :
    r ∉ l.filter (fun n => !(n.note_id == noteId)) := by
  intro hmem
  obtain ⟨_, hkey⟩ := List.mem_filter.mp hmem
  rw [hr] at hkey
  simp at hkey

theorem deadlineRows_filter_key (startId noteId : Nat) (issueKey : String)
    (us : List String) :
    (deadlineRows startId noteId issueKey us).filter
        (fun n => n.note_id == noteId) =
      deadlineRows startId noteId issueKey us := by
  rw [List.filter_eq_self]
  intro r hr
  have := (mem_deadlineRows noteId issueKey us startId r hr).2.1
  simp [this]

theorem usersToNotify_perm_congr (s1 s : DBState) (noteId : Nat)
    (c : String) (h : s1.note_permissions = s.note_permissions) :
    usersToNotify s1 noteId c = usersToNotify s noteId c := by
  unfold usersToNotify
  rw [h]

/-- The rows `updateNotificationsForDeadline` recreates after wiping the
note's notifications: none for an absent or non-future deadline, one per
recipient otherwise. -/
def regeneratedRows (s : DBState) (noteId : Nat) (nd : Option Int)
    (issueKey creator : String) (now : Int) : List Notification :=
  match nd with
  | some d =>
    if d ≤ now then []
    else deadlineRows s.nextNotificationId noteId issueKey
      (usersToNotify s noteId creator)
  | none => []

theorem updateNotificationsForDeadline_spec (s1 : DBState) (noteId : Nat)
    (nd : Option Int) (creator issueKey : String) (now : Int) :
    (updateNotificationsForDeadline s1 noteId nd creator issueKey
        now).notifications =
      (s1.notifications.filter (fun n => !(n.note_id == noteId))) ++
        regeneratedRows s1 noteId nd issueKey creator now := by
  unfold updateNotificationsForDeadline regeneratedRows
  rcases nd with _ | d
  · simp [deleteNotificationsByNote]
  · dsimp only
    by_cases hle : d ≤ now
    · rw [createDeadlineNotification_skip _ _ _ _ _ _
        (by simpa [jsDateMillis] using hle)]
      simp [deleteNotificationsByNote, hle]
    · rw [createDeadlineNotification_future _ _ _ _ _ _ (Int.not_le.mp hle)]
      simp only [hle, if_neg, if_false]
      have h1 : (deleteNotificationsByNote s1 noteId).notifications =
          s1.notifications.filter (fun n => !(n.note_id == noteId)) := rfl
      have h2 : (deleteNotificationsByNote s1 noteId).nextNotificationId =
          s1.nextNotificationId := rfl
      have h3 := usersToNotify_perm_congr (deleteNotificationsByNote s1 noteId)
        s1 noteId creator rfl
      rw [h1, h2, h3]

/-- C4: an update regenerates the note's reminder set by full replacement
exactly when the deadline field is present in the payload (including an
explicit null): every prior notification row of the note is deleted, new
rows appear only when the new deadline is a value strictly in the future
(one unsent row per recipient), clearing the deadline leaves zero rows, and
an update without the deadline field leaves the notification table
untouched. -/
theorem c4_update_replaces_reminders_iff_deadline_present (s : DBState)
    (noteId : Nat) (p : UpdatePayload) (userId : String) (now : Int)
    (s' : DBState) (hfresh : freshNotificationIds s)
    (hok : updateNoteService s noteId p userId now = Except.ok s') :
    (p.deadline = none → s'.notifications = s.notifications) ∧
    (∀ nd, p.deadline = some nd →
      (∀ r ∈ s.notifications, r.note_id = noteId → r ∉ s'.notifications) ∧
      (nd = none →
        s'.notifications.filter (fun n => n.note_id == noteId) = []) ∧
      (∀ d, nd = some d → d ≤ now →
        s'.notifications.filter (fun n => n.note_id == noteId) = []) ∧
      (∀ d, nd = some d → now < d →
        ∃ note, getNoteById s noteId = some note ∧
          (s'.notifications.filter (fun n => n.note_id == noteId)).map
              Notification.user_account_id =
            usersToNotify s noteId note.created_by ∧
          ∀ r ∈ s'.notifications.filter (fun n => n.note_id == noteId),
            r.is_read = false)) := by
  unfold updateNoteService at hok
  rcases hperm : hasPermission s noteId userId "write" with _ | _ <;>
    rw [hperm] at hok
  · exact absurd hok (by simp)
  rcases hnote : getNoteById s noteId with _ | note <;> rw [hnote] at hok
  · exact absurd hok (by simp)
  dsimp only at hok
  rcases ht : titleBlankUpdate p with _ | _ <;> rw [ht] at hok
  case true => exact absurd hok (by simp)
  rcases hst : statusInvalidUpdate p with _ | _ <;> rw [hst] at hok
  case true => exact absurd hok (by simp)
  simp only [Bool.false_eq_true, if_neg, not_false_eq_true] at hok
  rcases hdl : p.deadline with _ | nd <;> rw [hdl] at hok
  · refine ⟨fun _ => ?_, fun nd h => absurd h (by simp)⟩
    have hs' : s' = dbUpdateNote s noteId p := by
      exact (Except.ok.injEq _ _ ▸ hok).symm
    rw [hs', dbUpdateNote_notifications]
  · refine ⟨fun h => absurd h (by simp), fun nd' hnd' => ?_⟩
    have he := Option.some_inj.mp hnd'
    subst he
    have hs' : s' = updateNotificationsForDeadline (dbUpdateNote s noteId p)
        noteId nd note.created_by note.issue_key now := by
      exact (Except.ok.injEq _ _ ▸ hok).symm
    have hnotifs : s'.notifications =
        (s.notifications.filter (fun n => !(n.note_id == noteId))) ++
          regeneratedRows s noteId nd note.issue_key note.created_by now := by
      rw [hs', updateNotificationsForDeadline_spec]
      rw [dbUpdateNote_notifications]
      unfold regeneratedRows
      rcases nd with _ | d
      · rfl
      · rw [dbUpdateNote_nextId,
          usersToNotify_perm_congr (dbUpdateNote s noteId p) s noteId
            note.created_by (dbUpdateNote_perms s noteId p)]
    refine ⟨?_, ?_, ?_, ?_⟩
    · intro r hr hrkey
      rw [hnotifs]
      intro hmem
      rcases List.mem_append.mp hmem with h | h
      · exact not_mem_filter_not_key _ _ _ hrkey h
      · unfold regeneratedRows at h
        rcases nd with _ | d
        · simp at h
        · dsimp only at h
          by_cases hle : d ≤ now
          · rw [if_pos hle] at h
            simp at h
          · rw [if_neg hle] at h
            have hge := (mem_deadlineRows noteId note.issue_key _ _ r h).1
            have hlt := hfresh r hr
            omega
    · rintro rfl
      rw [hnotifs, List.filter_append, filter_key_of_deleted]
      rfl
    · rintro d rfl hle
      rw [hnotifs, List.filter_append, filter_key_of_deleted]
      unfold regeneratedRows
      dsimp only
      rw [if_pos hle]
      rfl
    · rintro d rfl hgt
      refine ⟨note, rfl, ?_, ?_⟩
      · rw [hnotifs, List.filter_append, filter_key_of_deleted]
        unfold regeneratedRows
        dsimp only
        rw [if_neg (Int.not_le.mpr hgt), List.nil_append,
          deadlineRows_filter_key, deadlineRows_map_user]
      · intro r hr
        rw [hnotifs, List.filter_append, filter_key_of_deleted] at hr
        unfold regeneratedRows at hr
        dsimp only at hr
        rw [if_neg (Int.not_le.mpr hgt), List.nil_append,
          deadlineRows_filter_key] at hr
        exact (mem_deadlineRows noteId note.issue_key _ _ r hr).2.2.1

def c4WitnessState : DBState :=
  { notes := [{ id := 1, issue_key := "PROJ-1", title := "T", content := "",
                created_by := "alice", deadline := some 1000,
                is_public := false, status := "open" }],
    note_permissions := [{ note_id := 1, user_account_id := "bob",
                           permission_type := "read", granted_by := "alice" }],
    notifications := [{ id := 1, user_account_id := "alice", note_id := 1,
                        kind := "deadline_reminder", title := "t",
                        message := "m", is_read := false }],
    nextNotificationId := 2 }

def c4WitnessPayload : UpdatePayload :=
  { title := none, content := none, deadline := some (some 7200000),
    isPublic := none, status := none }

theorem c4_update_replaces_reminders_iff_deadline_present_witness :
    freshNotificationIds c4WitnessState ∧
    ∃ s', updateNoteService c4WitnessState 1 c4WitnessPayload "alice" 0 =
        Except.ok s' ∧
      (∀ r ∈ c4WitnessState.notifications, r.note_id = 1 →
        r ∉ s'.notifications) ∧
      ∃ note, getNoteById c4WitnessState 1 = some note ∧
        (s'.notifications.filter (fun n => n.note_id == 1)).map
            Notification.user_account_id =
          usersToNotify c4WitnessState 1 note.created_by := by
  have hfresh : freshNotificationIds c4WitnessState := by
    intro n hn
    simp only [c4WitnessState] at hn
    rcases List.mem_singleton.mp hn with rfl
    decide
  have hok : updateNoteService c4WitnessState 1 c4WitnessPayload "alice" 0 =
      Except.ok (updateNotificationsForDeadline
        (dbUpdateNote c4WitnessState 1 c4WitnessPayload) 1 (some 7200000)
        "alice" "PROJ-1" 0) := rfl
  have h := c4_update_replaces_reminders_iff_deadline_present c4WitnessState 1
    c4WitnessPayload "alice" 0 _ hfresh hok
  obtain ⟨_, h2⟩ := h
  obtain ⟨hdel, _, _, hfut⟩ := h2 (some 7200000) rfl
  obtain ⟨note, hnote, hmap, _⟩ := hfut 7200000 rfl (by decide)
  exact ⟨hfresh, _, hok, hdel, note, hnote, hmap⟩

/-- `listStarts needle hay` is true when `needle` is an initial segment of
`hay` (character lists). -/
def listStarts : List Char → List Char → Bool
  | [], _ => true
  | _ :: _, [] => false
  | a :: as, b :: bs => a == b && listStarts as bs

/-- `listOccurs needle hay` is true when `needle` occurs contiguously
somewhere inside `hay`. -/
def listOccurs (needle : List Char) : List Char → Bool
  | [] => listStarts needle []
  | c :: rest => listStarts needle (c :: rest) || listOccurs needle rest

/-- `mentions hay needle`: the string `needle` occurs inside `hay`. Used to
state that a notification row references (or fails to reference) a piece of
text such as the note title or the container key. -/
def mentions (hay needle : String) : Bool :=
  listOccurs needle.toList hay.toList

def c5State : DBState :=
  { notes := [{ id := 1, issue_key := "PROJ-1", title := "groceries",
                content := "", created_by := "alice",
                deadline := some 7200000, is_public := false,
                status := "open" }],
    note_permissions := [], notifications := [], nextNotificationId := 0 }

/-- C5 counterexample: materializing reminders for note 1 of `c5State`
(title "groceries", deadline two hours in the future, evaluation time 0)
creates exactly one row, and neither its title nor its message mentions the
note title anywhere — refuting the claim that each row carries a reminder
referencing the container and the note title. The row does mention the
container key. -/
theorem c5_counterexample_no_note_title :
    (getNoteById c5State 1).map Note.title = some "groceries" ∧
    (createDeadlineNotification c5State 1 (some 7200000) "alice" "PROJ-1"
        0).notifications.map
      (fun r => mentions (r.title ++ " " ++ r.message) "groceries") = [false] ∧
    (createDeadlineNotification c5State 1 (some 7200000) "alice" "PROJ-1"
        0).notifications.map
      (fun r => mentions (r.title ++ " " ++ r.message) "PROJ-1") = [true] := by
  refine ⟨by decide, by decide, by decide⟩

/-- C5 (amended): materializing reminders for a deadline does nothing when
the deadline is absent or not strictly in the future at evaluation time;
otherwise it creates exactly one unsent notification row per recipient,
where the recipient set is the note's owner plus every distinct grantee
holding any grant on the note, and each row carries a human-readable
reminder referencing the container (but not the note title, which the
message does not include). -/
theorem c5_materialize_rows_per_recipient (s : DBState) (noteId : Nat)
    (deadline : Option Int) (creatorId issueKey : String) (now : Int)
    (hnow : 0 ≤ now) :
    (deadline = none →
      createDeadlineNotification s noteId deadline creatorId issueKey now = s) ∧
    (∀ d, deadline = some d → d ≤ now →
      createDeadlineNotification s noteId deadline creatorId issueKey now = s) ∧
    (∀ d, deadline = some d → now < d →
      ∃ rows,
        (createDeadlineNotification s noteId deadline creatorId issueKey
            now).notifications = s.notifications ++ rows ∧
        rows.map Notification.user_account_id =
          usersToNotify s noteId creatorId ∧
        (usersToNotify s noteId creatorId).Nodup ∧
        (∀ u, u ∈ usersToNotify s noteId creatorId ↔
          u = creatorId ∨ ∃ g ∈ s.note_permissions,
            g.note_id = noteId ∧ g.user_account_id = u) ∧
        (∀ r ∈ rows, r.is_read = false ∧ r.note_id = noteId ∧
          r.message =
            "Your note deadline is approaching. Issue: " ++ issueKey)) := by
  refine ⟨?_, ?_, ?_⟩
  · rintro rfl
    exact createDeadlineNotification_skip s noteId none creatorId issueKey now
      (by simpa [jsDateMillis] using hnow)
  · rintro d rfl hle
    exact createDeadlineNotification_skip s noteId (some d) creatorId issueKey
      now (by simpa [jsDateMillis] using hle)
  · rintro d rfl hgt
    refine ⟨deadlineRows s.nextNotificationId noteId issueKey
      (usersToNotify s noteId creatorId), ?_, ?_, ?_, ?_, ?_⟩
    · exact createDeadlineNotification_future s noteId d creatorId issueKey
        now hgt
    · exact deadlineRows_map_user noteId issueKey _ _
    · exact nodup_usersToNotify s noteId creatorId
    · exact fun u => mem_usersToNotify s noteId creatorId u
    · intro r hr
      have h := mem_deadlineRows noteId issueKey _ _ r hr
      exact ⟨h.2.2.1, h.2.1, h.2.2.2.1⟩

def c5AmendedWitnessState : DBState :=
  { notes := [{ id := 1, issue_key := "PROJ-1", title := "groceries",
                content := "", created_by := "alice",
                deadline := some 7200000, is_public := false,
                status := "open" }],
    note_permissions := [{ note_id := 1, user_account_id := "bob",
                           permission_type := "read", granted_by := "alice" }],
    notifications := [], nextNotificationId := 0 }

theorem c5_materialize_rows_per_recipient_witness :
    (0 : Int) ≤ 0 ∧
    ∃ rows,
      (createDeadlineNotification c5AmendedWitnessState 1 (some 7200000)
          "alice" "PROJ-1" 0).notifications =
        c5AmendedWitnessState.notifications ++ rows ∧
      rows.map Notification.user_account_id =
        usersToNotify c5AmendedWitnessState 1 "alice" ∧
      usersToNotify c5AmendedWitnessState 1 "alice" = ["alice", "bob"] := by
  have h := c5_materialize_rows_per_recipient c5AmendedWitnessState 1
    (some 7200000) "alice" "PROJ-1" 0 (by decide)
  obtain ⟨rows, hrows, hmap, _⟩ := h.2.2 7200000 rfl (by decide)
  exact ⟨by decide, rows, hrows, hmap, by decide⟩

/-- `databaseService.markNotificationAsRead`:
`UPDATE notifications SET is_read = TRUE WHERE id = ?`. -/
def markNotificationAsRead (s : DBState) (notificationId : Nat) : DBState :=
  { s with notifications := s.notifications.map (fun n =>
      if n.id == notificationId then { n with is_read := true } else n) }

/-- The result of `checkAndSendNotifications`: the early no-op result when
nothing is due, or the aggregate counts (sent, failed, total due). -/
inductive SweepOutcome
  | noPending
  | swept (sent failed total : Nat)
deriving Repr, DecidableEq

/-- The per-entry loop of `checkAndSendNotifications`: attempt delivery
(failure injected by `deliverFails` on the notification id), then mark the
row sent (failure of that store write injected by `markFails`); any failure
inside the try block counts the entry as failed and leaves the row unsent,
and processing continues with the remaining entries. -/
def processDue (deliverFails markFails : Nat → Bool) :
    List DueEntry → DBState → DBState × Nat × Nat
  | [], s => (s, 0, 0)
  | e :: rest, s =>
    if deliverFails e.notification.id then
      let r := processDue deliverFails markFails rest s
      (r.1, r.2.1, r.2.2 + 1)
    else if markFails e.notification.id then
      let r := processDue deliverFails markFails rest s
      (r.1, r.2.1, r.2.2 + 1)
    else
      let r := processDue deliverFails markFails rest
        (markNotificationAsRead s e.notification.id)
      (r.1, r.2.1 + 1, r.2.2)

/-- `notification-scheduler.js checkAndSendNotifications` at time `now`:
fetch the due set, return the no-op result when it is empty, otherwise
process every entry and return the aggregate counts. -/
def checkAndSendNotifications (s : DBState) (now : Int)
    (deliverFails markFails : Nat → Bool) : DBState × SweepOutcome :=
  let pending := getPendingNotificationsService s now
  if pending.isEmpty then (s, SweepOutcome.noPending)
  else
    let r := processDue deliverFails markFails pending s
    (r.1, SweepOutcome.swept r.2.1 r.2.2 pending.length)

/-- Entries whose delivery and mark-sent store write both succeed. -/
def entrySucceeds (deliverFails markFails : Nat → Bool) (e : DueEntry) : Bool :=
  !deliverFails e.notification.id && !markFails e.notification.id

/-- The final state of the per-entry loop: all successfully processed ids
marked read at once. -/
def markManyRead (s : DBState) (ids : List Nat) : DBState :=
  { s with notifications := s.notifications.map (fun n =>
      if ids.contains n.id then { n with is_read := true } else n) }

theorem markManyRead_nil (s : DBState) : markManyRead s [] = s := by
  unfold markManyRead
  simp

theorem markManyRead_cons (s : DBState) (i : Nat) (ids : List Nat) :
    markManyRead (markNotificationAsRead s i) ids =
      markManyRead s (i :: ids) := by
  unfold markManyRead markNotificationAsRead
  simp only [List.map_map]
  have hfun : ((fun n : Notification =>
      if ids.contains n.id then { n with is_read := true } else n) ∘
      (fun n : Notification =>
      if n.id == i then { n with is_read := true } else n)) =
      (fun n : Notification =>
      if (i :: ids).contains n.id then { n with is_read := true } else n) := by
    funext n
    by_cases hip : n.id = i
    · by_cases hconp : n.id ∈ ids <;>
        simp [Function.comp_apply, hip, hconp]
    · by_cases hconp : n.id ∈ ids <;>
        simp [Function.comp_apply, hip, hconp]
  rw [hfun]

theorem processDue_spec (deliverFails markFails : Nat → Bool) :
    ∀ (l : List DueEntry) (s : DBState),
      processDue deliverFails markFails l s =
        (markManyRead s ((l.filter (entrySucceeds deliverFails markFails)).map
            (fun e => e.notification.id)),
         (l.filter (entrySucceeds deliverFails markFails)).length,
         (l.filter (fun e => !entrySucceeds deliverFails markFails e)).length) := by
  intro l
  induction l with
  | nil => intro s; simp [processDue, markManyRead_nil]
  | cons e rest ih =>
    intro s
    rw [processDue]
    by_cases hdf : deliverFails e.notification.id
    · have hfail : entrySucceeds deliverFails markFails e = false := by
        simp [entrySucceeds, hdf]
      rw [if_pos hdf, ih s]
      simp [List.filter_cons, hfail]
    · rw [if_neg hdf]
      by_cases hmf : markFails e.notification.id
      · have hfail : entrySucceeds deliverFails markFails e = false := by
          simp [entrySucceeds, hmf]
        rw [if_pos hmf, ih s]
        simp [List.filter_cons, hfail]
      · have hsucc : entrySucceeds deliverFails markFails e = true := by
          simp [entrySucceeds, hdf, hmf]
        rw [if_neg hmf, ih (markNotificationAsRead s e.notification.id)]
        simp only [List.filter_cons, hsucc, if_pos, List.map_cons,
          List.length_cons, Bool.not_true, Bool.false_eq_true, if_neg,
          not_false_eq_true, markManyRead_cons]

theorem markManyRead_mem_of_not_contains (s : DBState) (ids : List Nat)
    (n : Notification) (hn : n ∈ s.notifications)
    (h : ids.contains n.id = false) :
    n ∈ (markManyRead s ids).notifications := by
  unfold markManyRead
  dsimp only
  have : n = if ids.contains n.id then { n with is_read := true } else n := by
    rw [h]
    simp
  rw [this]
  exact List.mem_map_of_mem _ hn

theorem markManyRead_mem_of_contains (s : DBState) (ids : List Nat)
    (n : Notification) (hn : n ∈ s.notifications)
    (h : ids.contains n.id = true) :
    { n with is_read := true } ∈ (markManyRead s ids).notifications := by
  unfold markManyRead
  dsimp only
  have : { n with is_read := true } =
      if ids.contains n.id then { n with is_read := true } else n := by
    rw [h]
    simp
  rw [this]
  exact List.mem_map_of_mem _ hn

theorem markManyRead_notes (s : DBState) (ids : List Nat) :
    (markManyRead s ids).notes = s.notes := rfl

theorem mem_due_notification (s : DBState) (now : Int) (e : DueEntry)
    (he : e ∈ getPendingNotificationsService s now) :
    e.notification ∈ s.notifications ∧ e.notification.is_read = false :=
  ⟨((mem_getPendingNotifications s now e).mp he).1,
   ((mem_getPendingNotifications s now e).mp he).2.1⟩

/-- C7: during a sweep, every due entry whose delivery (and mark-sent
write) succeeds has its notification row marked sent, every entry whose
delivery fails keeps its row unsent for the next sweep, one entry's failure
does not abort the others, and the returned result aggregates the counts of
total due, sent, and failed entries (sent + failed = total). -/
theorem c7_sweep_marks_and_counts (s : DBState) (now : Int)
    (deliverFails markFails : Nat → Bool)
    (hne : getPendingNotificationsService s now ≠ []) :
    ∃ s',
      checkAndSendNotifications s now deliverFails markFails =
        (s', SweepOutcome.swept
          ((getPendingNotificationsService s now).filter
            (entrySucceeds deliverFails markFails)).length
          ((getPendingNotificationsService s now).filter
            (fun e => !entrySucceeds deliverFails markFails e)).length
          (getPendingNotificationsService s now).length) ∧
      ((getPendingNotificationsService s now).filter
          (entrySucceeds deliverFails markFails)).length +
        ((getPendingNotificationsService s now).filter
          (fun e => !entrySucceeds deliverFails markFails e)).length =
        (getPendingNotificationsService s now).length ∧
      (∀ e ∈ getPendingNotificationsService s now,
        entrySucceeds deliverFails markFails e = true →
          { e.notification with is_read := true } ∈ s'.notifications) ∧
      (∀ e ∈ getPendingNotificationsService s now,
        deliverFails e.notification.id = true →
          e.notification ∈ s'.notifications ∧
            e.notification.is_read = false) := by
  have hpe : (getPendingNotificationsService s now).isEmpty = false := by
    rcases h : (getPendingNotificationsService s now).isEmpty with _ | _
    · rfl
    · exact absurd (List.isEmpty_iff.mp h) hne
  refine ⟨markManyRead s (((getPendingNotificationsService s now).filter
    (entrySucceeds deliverFails markFails)).map (fun e => e.notification.id)),
    ?_, ?_, ?_, ?_⟩
  · unfold checkAndSendNotifications
    simp only [hpe, Bool.false_eq_true, if_false]
    rw [processDue_spec]
  · exact (List.length_eq_length_filter_add _).symm
  · intro e he hsucc
    apply markManyRead_mem_of_contains
    · exact (mem_due_notification s now e he).1
    · exact List.elem_iff.mpr (List.mem_map_of_mem _
        (List.mem_filter.mpr ⟨he, hsucc⟩))
  · intro e he hdf
    have hnc : (((getPendingNotificationsService s now).filter
        (entrySucceeds deliverFails markFails)).map
          (fun e => e.notification.id)).contains e.notification.id = false := by
      rcases h : (((getPendingNotificationsService s now).filter
          (entrySucceeds deliverFails markFails)).map
            (fun e => e.notification.id)).contains e.notification.id
        with _ | _
      · exact h
      · exfalso
        obtain ⟨e', he', hid⟩ := List.mem_map.mp (List.elem_iff.mp h)
        have hsucc' := (List.mem_filter.mp he').2
        simp only [entrySucceeds, Bool.and_eq_true, Bool.not_eq_true'] at hsucc'
        have hdf' := hsucc'.1
        rw [hid] at hdf'
        rw [hdf'] at hdf
        exact absurd hdf (by simp)
    exact ⟨markManyRead_mem_of_not_contains s _ _
        (mem_due_notification s now e he).1 hnc,
      (mem_due_notification s now e he).2⟩

def cSweepNote : Note :=
  { id := 1, issue_key := "PROJ-1", title := "T", content := "",
    created_by := "alice", deadline := some 7200000, is_public := false,
    status := "open" }

def cSweepNotification : Notification :=
  { id := 1, user_account_id := "alice", note_id := 1,
    kind := "deadline_reminder", title := "t", message := "m",
    is_read := false }

def cSweepState : DBState :=
  { notes := [cSweepNote], note_permissions := [],
    notifications := [cSweepNotification], nextNotificationId := 2 }

def cSweepEntry : DueEntry :=
  { notification := cSweepNotification, note := cSweepNote,
    hoursUntilDeadline := 2 }

theorem cSweepState_pending :
    getPendingNotificationsService cSweepState 0 = [cSweepEntry] := by
  norm_num [getPendingNotificationsService, duePendingStep, getNoteById,
    cSweepState, cSweepNote, cSweepNotification, cSweepEntry,
    List.filter_cons, List.filter_nil, List.filterMap_cons,
    hoursUntilDeadline]

theorem c7_sweep_marks_and_counts_witness :
    ∃ s' sent failed total,
      checkAndSendNotifications cSweepState 0 (fun _ => false)
          (fun _ => false) = (s', SweepOutcome.swept sent failed total) ∧
        sent + failed = total := by
  have hne : getPendingNotificationsService cSweepState 0 ≠ [] := by
    rw [cSweepState_pending]
    simp
  obtain ⟨s', heq, hsum, _, _⟩ := c7_sweep_marks_and_counts cSweepState 0
    (fun _ => false) (fun _ => false) hne
  exact ⟨s', _, _, _, heq, hsum⟩

/-- C10: when delivery for a due entry succeeds but the store write marking
the notification sent fails, the sweep counts the entry as failed, the row
stays unsent, and the entry is due again at the same evaluation time — so
per-recipient delivery is at-least-once, not exactly-once. -/
theorem c10_mark_failure_redelivers (s : DBState) (now : Int)
    (deliverFails markFails : Nat → Bool) (e : DueEntry)
    (he : e ∈ getPendingNotificationsService s now)
    (_hdf : deliverFails e.notification.id = false)
    (hmf : markFails e.notification.id = true) :
    ∃ s' sent failed,
      checkAndSendNotifications s now deliverFails markFails =
        (s', SweepOutcome.swept sent failed
          (getPendingNotificationsService s now).length) ∧
      1 ≤ failed ∧
      e.notification ∈ s'.notifications ∧ e.notification.is_read = false ∧
      e ∈ getPendingNotificationsService s' now := by
  have hne : getPendingNotificationsService s now ≠ [] :=
    List.ne_nil_of_mem he
  have hpe : (getPendingNotificationsService s now).isEmpty = false := by
    rcases h : (getPendingNotificationsService s now).isEmpty with _ | _
    · rfl
    · exact absurd (List.isEmpty_iff.mp h) hne
  have hfaile : entrySucceeds deliverFails markFails e = false := by
    unfold entrySucceeds
    rw [hmf]
    simp
  have hnc : (((getPendingNotificationsService s now).filter
      (entrySucceeds deliverFails markFails)).map
        (fun e => e.notification.id)).contains e.notification.id = false := by
    rcases h : (((getPendingNotificationsService s now).filter
        (entrySucceeds deliverFails markFails)).map
          (fun e => e.notification.id)).contains e.notification.id
      with _ | _
    · exact h
    · exfalso
      obtain ⟨e', he', hid⟩ := List.mem_map.mp (List.elem_iff.mp h)
      have hsucc' := (List.mem_filter.mp he').2
      simp only [entrySucceeds, Bool.and_eq_true, Bool.not_eq_true'] at hsucc'
      have hmf' := hsucc'.2
      rw [hid] at hmf'
      rw [hmf'] at hmf
      exact absurd hmf (by simp)
  set s' := markManyRead s (((getPendingNotificationsService s now).filter
    (entrySucceeds deliverFails markFails)).map (fun e => e.notification.id))
    with hs'
  have hmem : e.notification ∈ s'.notifications :=
    markManyRead_mem_of_not_contains s _ _
      (mem_due_notification s now e he).1 hnc
  have hchar := (mem_getPendingNotifications s now e).mp he
  refine ⟨s',
    ((getPendingNotificationsService s now).filter
      (entrySucceeds deliverFails markFails)).length,
    ((getPendingNotificationsService s now).filter
      (fun e => !entrySucceeds deliverFails markFails e)).length,
    ?_, ?_, hmem, hchar.2.1, ?_⟩
  · unfold checkAndSendNotifications
    simp only [hpe, Bool.false_eq_true, if_false]
    rw [processDue_spec]
  · have hmemf : e ∈ (getPendingNotificationsService s now).filter
        (fun e => !entrySucceeds deliverFails markFails e) :=
      List.mem_filter.mpr ⟨he, by rw [hfaile]; rfl⟩
    have := List.length_pos.mpr (List.ne_nil_of_mem hmemf)
    omega
  · apply (mem_getPendingNotifications s' now e).mpr
    obtain ⟨_, hunread, hnote, d, hdl, hh, hle⟩ := hchar
    refine ⟨hmem, hunread, ?_, d, hdl, hh, hle⟩
    unfold getNoteById
    rw [hs', markManyRead_notes]
    exact hnote

theorem c10_mark_failure_redelivers_witness :
    cSweepEntry ∈ getPendingNotificationsService cSweepState 0 ∧
    ∃ s' sent failed,
      checkAndSendNotifications cSweepState 0 (fun _ => false)
          (fun _ => true) =
        (s', SweepOutcome.swept sent failed
          (getPendingNotificationsService cSweepState 0).length) ∧
      1 ≤ failed ∧
      cSweepEntry ∈ getPendingNotificationsService s' 0 := by
  have he : cSweepEntry ∈ getPendingNotificationsService cSweepState 0 := by
    rw [cSweepState_pending]
    exact List.mem_singleton_self _
  obtain ⟨s', sent, failed, heq, hge, _, _, hagain⟩ :=
    c10_mark_failure_redelivers cSweepState 0 (fun _ => false)
      (fun _ => true) cSweepEntry he rfl rfl
  exact ⟨he, s', sent, failed, heq, hge, hagain⟩

/-- One element of the per-grantee outcome list of `shareNoteMultiple`. -/
structure ShareOutcome where
  targetUserId : String
  success : Bool
deriving Repr, DecidableEq

/-- The result object of `shareNoteMultiple`: aggregate counts plus the
per-grantee outcome list. -/
structure ShareManyResult where
  totalUsers : Nat
  successfulShares : Nat
  failedShares : Nat
  results : List ShareOutcome
deriving Repr, DecidableEq

/-- The per-grantee loop of `shareNoteMultiple`: each target is shared
independently; a store failure for one target (injected by `fails`) is
caught, recorded as a failed outcome, and does not stop the loop. -/
def shareLoop (noteId : Nat) (ptype userId : String) (fails : String → Bool) :
    List String → DBState → DBState × List ShareOutcome × Nat
  | [], s => (s, [], 0)
  | t :: rest, s =>
    if fails t then
      let r := shareLoop noteId ptype userId fails rest s
      (r.1, { targetUserId := t, success := false } :: r.2.1, r.2.2 + 1)
    else
      let r := shareLoop noteId ptype userId fails rest
        (dbShareNote s noteId t ptype userId)
      (r.1, { targetUserId := t, success := true } :: r.2.1, r.2.2)

/-- `notesService.shareNoteMultiple`: structural validation up front (note
exists and the actor owns it, valid permission level, non-empty target
list), then the independent per-grantee loop, returning the outcome list
with aggregate counts; per-grantee failures never raise. -/
def shareNoteMultiple (s : DBState) (noteId : Nat)
    (targetUserIds : List String) (permissionType userId : String)
    (fails : String → Bool) : Except String (DBState × ShareManyResult) :=
  match getNoteById s noteId with
  | none => Except.error "Note not found"
  | some note =>
    if !(note.created_by == userId) then
      Except.error "Only the note owner can share it"
    else if !(permissionType == "read" || permissionType == "write") then
      Except.error "Invalid permission type"
    else if targetUserIds.isEmpty then
      Except.error "Target user IDs must be a non-empty array"
    else
      let r := shareLoop noteId permissionType userId fails targetUserIds s
      Except.ok (r.1,
        { totalUsers := targetUserIds.length,
          successfulShares := (r.2.1.filter ShareOutcome.success).length,
          failedShares := r.2.2,
          results := r.2.1 })

/-- A grant row for (note, target) exists. -/
def hasGrant (s : DBState) (noteId : Nat) (t : String) : Prop :=
  ∃ g ∈ s.note_permissions, g.note_id = noteId ∧ g.user_account_id = t

theorem dbShareNote_creates_grant (s : DBState) (noteId : Nat)
    (t ptype gb : String) : hasGrant (dbShareNote s noteId t ptype gb) noteId t := by
  unfold dbShareNote hasGrant
  by_cases hany : s.note_permissions.any (grantKeyMatches noteId t) = true
  · rw [if_pos hany]
    obtain ⟨p, hp, hkey⟩ := List.any_eq_true.mp hany
    obtain ⟨h1, h2⟩ : p.note_id = noteId ∧ p.user_account_id = t := by
      simpa [grantKeyMatches] using hkey
    refine ⟨if grantKeyMatches noteId t p
      then { p with permission_type := ptype } else p,
      List.mem_map_of_mem _ hp, ?_⟩
    rw [if_pos hkey]
    exact ⟨h1, h2⟩
  · rw [if_neg hany]
    exact ⟨{ note_id := noteId, user_account_id := t,
             permission_type := ptype, granted_by := gb },
      List.mem_append_right _ (List.mem_singleton_self _), rfl, rfl⟩

theorem dbShareNote_preserves_grant (s : DBState) (noteId noteId' : Nat)
    (t t' ptype gb : String) (h : hasGrant s noteId t) :
    hasGrant (dbShareNote s noteId' t' ptype gb) noteId t := by
  obtain ⟨g, hg, h1, h2⟩ := h
  unfold dbShareNote hasGrant
  by_cases hany : s.note_permissions.any (grantKeyMatches noteId' t') = true
  · rw [if_pos hany]
    refine ⟨if grantKeyMatches noteId' t' g
      then { g with permission_type := ptype } else g,
      List.mem_map_of_mem _ hg, ?_⟩
    by_cases hkey : grantKeyMatches noteId' t' g = true
    · rw [if_pos hkey]
      exact ⟨h1, h2⟩
    · rw [if_neg hkey]
      exact ⟨h1, h2⟩
  · rw [if_neg hany]
    exact ⟨g, List.mem_append_left _ hg, h1, h2⟩

theorem shareLoop_results (noteId : Nat) (ptype userId : String)
    (fails : String → Bool) :
    ∀ (l : List String) (s : DBState),
      (shareLoop noteId ptype userId fails l s).2.1 =
          l.map (fun t => { targetUserId := t, success := !fails t }) ∧
        (shareLoop noteId ptype userId fails l s).2.2 =
          (l.filter fails).length := by
  intro l
  induction l with
  | nil => intro s; simp [shareLoop]
  | cons t rest ih =>
    intro s
    rw [shareLoop]
    by_cases hf : fails t = true
    · rw [if_pos hf]
      obtain ⟨h1, h2⟩ := ih s
      simp [h1, h2, List.filter_cons, hf]
    · rw [if_neg hf]
      have hf' : fails t = false := by simpa using hf
      obtain ⟨h1, h2⟩ := ih (dbShareNote s noteId t ptype userId)
      simp [h1, h2, List.filter_cons, hf']

theorem shareLoop_preserves_grant (noteId : Nat) (ptype userId : String)
    (fails : String → Bool) :
    ∀ (l : List String) (s : DBState) (t : String),
      hasGrant s noteId t →
        hasGrant (shareLoop noteId ptype userId fails l s).1 noteId t := by
  intro l
  induction l with
  | nil => intro s t h; exact h
  | cons u rest ih =>
    intro s t h
    rw [shareLoop]
    by_cases hf : fails u = true
    · rw [if_pos hf]
      exact ih s t h
    · rw [if_neg hf]
      exact ih (dbShareNote s noteId u ptype userId) t
        (dbShareNote_preserves_grant s noteId noteId t u ptype userId h)

theorem shareLoop_creates_grant (noteId : Nat) (ptype userId : String)
    (fails : String → Bool) :
    ∀ (l : List String) (s : DBState) (t : String),
      t ∈ l → fails t = false →
        hasGrant (shareLoop noteId ptype userId fails l s).1 noteId t := by
  intro l
  induction l with
  | nil => intro s t h; simp at h
  | cons u rest ih =>
    intro s t ht hfl
    rw [shareLoop]
    rcases List.mem_cons.mp ht with rfl | hmem
    · rw [if_neg (by simp [hfl])]
      exact shareLoop_preserves_grant noteId ptype userId fails rest _ t
        (dbShareNote_creates_grant s noteId t ptype userId)
    · by_cases hf : fails u = true
      · rw [if_pos hf]
        exact ih s t hmem hfl
      · rw [if_neg hf]
        exact ih (dbShareNote s noteId u ptype userId) t hmem hfl

/-- C8: `shareNoteMultiple` applies the single-share operation to each
grantee independently — a per-grantee store failure does not abort the
others and never raises — returning the per-grantee outcome list and
aggregate counts (total attempted, succeeded, failed, with
succeeded + failed = total), and every grantee whose store write succeeded
holds a grant afterwards. It raises only for a structural error: missing or
non-owned note, invalid permission level, or an empty grantee list. -/
theorem c8_shareMany_per_grantee_isolation (s : DBState) (noteId : Nat)
    (targets : List String) (ptype userId : String) (fails : String → Bool)
    (note : Note) (hnote : getNoteById s noteId = some note)
    (howner : note.created_by = userId)
    (hptype : ptype = "read" ∨ ptype = "write")
    (hne : targets ≠ []) :
    ∃ s' res, shareNoteMultiple s noteId targets ptype userId fails =
        Except.ok (s', res) ∧
      res.totalUsers = targets.length ∧
      res.successfulShares = (targets.filter (fun t => !fails t)).length ∧
      res.failedShares = (targets.filter fails).length ∧
      res.successfulShares + res.failedShares = res.totalUsers ∧
      res.results = targets.map
        (fun t => { targetUserId := t, success := !fails t }) ∧
      ∀ t ∈ targets, fails t = false → hasGrant s' noteId t := by
  unfold shareNoteMultiple
  rw [hnote]
  dsimp only
  rw [if_neg (by simp [howner])]
  have hpt : (ptype == "read" || ptype == "write") = true := by
    rcases hptype with rfl | rfl <;> simp
  rw [if_neg (by simp [hpt])]
  rw [if_neg (by simpa [List.isEmpty_iff] using hne)]
  obtain ⟨hres, hcount⟩ := shareLoop_results noteId ptype userId fails targets s
  refine ⟨_, _, rfl, rfl, ?_, hcount, ?_, hres, ?_⟩
  · rw [hres, List.filter_map]
    rw [List.length_map]
    congr 1
  · dsimp only
    rw [hres, hcount, List.filter_map, List.length_map]
    have hsum : targets.length = (targets.filter fails).length +
        (targets.filter (fun t => !fails t)).length :=
      List.length_eq_length_filter_add fails
    have hcomp : (ShareOutcome.success ∘ fun t =>
        ({ targetUserId := t, success := !fails t } : ShareOutcome)) =
        fun t => !fails t := rfl
    rw [hcomp]
    omega
  · intro t ht hfl
    exact shareLoop_creates_grant noteId ptype userId fails targets s t ht hfl

def c8State : DBState :=
  { notes := [{ id := 1, issue_key := "PROJ-1", title := "T", content := "",
                created_by := "alice", deadline := none, is_public := false,
                status := "open" }],
    note_permissions := [], notifications := [], nextNotificationId := 0 }

theorem c8_shareMany_per_grantee_isolation_witness :
    ∃ s' res, shareNoteMultiple c8State 1 ["U2", "U3"] "read" "alice"
        (fun t => t == "U3") = Except.ok (s', res) ∧
      res.totalUsers = 2 ∧ res.successfulShares = 1 ∧ res.failedShares = 1 ∧
      hasGrant s' 1 "U2" := by
  obtain ⟨s', res, heq, htot, hsucc, hfail, _, _, hgrant⟩ :=
    c8_shareMany_per_grantee_isolation c8State 1 ["U2", "U3"] "read" "alice"
      (fun t => t == "U3")
      { id := 1, issue_key := "PROJ-1", title := "T", content := "",
        created_by := "alice", deadline := none, is_public := false,
        status := "open" }
      (by decide) rfl (Or.inl rfl) (by decide)
  refine ⟨s', res, heq, htot.trans (by decide), hsucc.trans (by decide),
    hfail.trans (by decide), hgrant "U2" (by decide) rfl⟩

/-- Which of the two store calls inside `hasPermission` fail, modelling the
try/catch around database-service.js lines 248-283. -/
structure StoreFaults where
  noteQueryFails : Bool
  permQueryFails : Bool
deriving Repr, DecidableEq

/-- `getNoteById` as called from inside `hasPermission`, with an injected
store failure. -/
def getNoteByIdE (f : StoreFaults) (s : DBState) (noteId : Nat) :
    Except String (Option Note) :=
  if f.noteQueryFails then Except.error "db failure in getNoteById"
  else Except.ok (getNoteById s noteId)

/-- The `SELECT permission_type FROM note_permissions ...` call of
`hasPermission`, with an injected store failure. -/
def permQueryE (f : StoreFaults) (s : DBState) (noteId : Nat)
    (userId : String) : Except String (List Grant) :=
  if f.permQueryFails then Except.error "db failure in permission query"
  else Except.ok (s.note_permissions.filter (grantKeyMatches noteId userId))

/-- The body of the `try` block of `hasPermission`: any store failure
propagates out of the body. -/
def hasPermissionTry (f : StoreFaults) (s : DBState) (noteId : Nat)
    (userId requiredPermission : String) : Except String Bool :=
  match getNoteByIdE f s noteId with
  | Except.error e => Except.error e
  | Except.ok none => Except.ok false
  | Except.ok (some note) =>
    if note.created_by == userId then Except.ok true
    else if note.is_public && requiredPermission == "read" then Except.ok true
    else
      match permQueryE f s noteId userId with
      | Except.error e => Except.error e
      | Except.ok rows =>
        match rows.head? with
        | none => Except.ok false
        | some p =>
          if requiredPermission == "write" then
            Except.ok (p.permission_type == "write")
          else Except.ok true

/-- `databaseService.hasPermission` as exported: the `catch` block logs the
error and returns `false`. -/
def hasPermissionE (f : StoreFaults) (s : DBState) (noteId : Nat)
    (userId requiredPermission : String) : Except String Bool :=
  match hasPermissionTry f s noteId userId requiredPermission with
  | Except.ok b => Except.ok b
  | Except.error _ => Except.ok false

def c9Faults : StoreFaults := { noteQueryFails := true, permQueryFails := false }

/-- C9 counterexample: with the note-lookup store call failing, the body of
the permission check raises, yet the exported `hasPermission` returns the
ordinary decision `false` (deny) instead of propagating the failure — the
catch block at database-service.js lines 280-283 swallows the error. -/
theorem c9_counterexample_failure_reported_as_denial :
    (∃ msg, hasPermissionTry c9Faults c1WitnessState 1 "bob" "read" =
      Except.error msg) ∧
    hasPermissionE c9Faults c1WitnessState 1 "bob" "read" =
      Except.ok false :=
  ⟨⟨"db failure in getNoteById", rfl⟩, rfl⟩

/-- C9 (amended): when an underlying store call performed during a
permission check fails, `hasPermission` catches the failure and returns
`false` (deny) — it never raises, so a dependency failure is reported to
the caller exactly like an ordinary denial. -/
theorem c9_hasPermission_catches_store_failure (f : StoreFaults)
    (s : DBState) (noteId : Nat) (userId req : String) :
    (∀ msg, hasPermissionTry f s noteId userId req = Except.error msg →
      hasPermissionE f s noteId userId req = Except.ok false) ∧
    (f.noteQueryFails = true →
      hasPermissionE f s noteId userId req = Except.ok false) ∧
    (∃ b, hasPermissionE f s noteId userId req = Except.ok b) := by
  refine ⟨fun msg h => ?_, fun hf => ?_, ?_⟩
  · unfold hasPermissionE
    rw [h]
  · unfold hasPermissionE hasPermissionTry getNoteByIdE
    rw [hf]
    rfl
  · unfold hasPermissionE
    cases hasPermissionTry f s noteId userId req with
    | ok b => exact ⟨b, rfl⟩
    | error e => exact ⟨false, rfl⟩

theorem c9_hasPermission_catches_store_failure_witness :
    hasPermissionE c9Faults c1WitnessState 1 "bob" "read" =
        Except.ok false ∧
      (∃ b, hasPermissionE c9Faults c1WitnessState 1 "bob" "read" =
        Except.ok b) := by
  have h := c9_hasPermission_catches_store_failure c9Faults c1WitnessState 1
    "bob" "read"
  exact ⟨h.2.1 rfl, h.2.2⟩

end SmartList
